import Mathlib

/-!
Verification of the batched-environment engine of `torchrl/envs/vec_env.py`
(`SerialEnv`, `ParallelEnv`, `_BatchedEnv`, `_run_worker_pipe_shared_mem`).

The embedding is shallow: Frames (TensorDicts) are ordered key/value lists,
one per worker slice; the simulator collaborator is an abstract deterministic
state machine; orchestrator operations are pure functions over the list of
worker states and the list of buffer slices.  The `TensorDict` class and the
`_EnvClass` base class live outside the sources at hand, so their small
surface (select/update/keys, the shape assertion, the simulator contract) is
modelled from the specification; everything else is translated directly from
`vec_env.py`.
-/

namespace TorchRLVec

/-- Frame keys are strings. -/
abbrev Key := String

/-- Array cells.  Tensors in the claims are scalar per worker slice; booleans
such as the `done` flag are encoded numerically, nonzero meaning true. -/
abbrev Val := Int

/-- Modelled from the spec: a Frame (TensorDict; the class itself is not among
the sources) is an ordered mapping from string key to value.  A `Frame` here
is one worker's slice; the shared buffer is a `List Frame`, one slice per
worker, mirroring `shared_tensordict_parent.unbind(0)`. -/
abbrev Frame := List (Key × Val)

/-- The ordered key list of a Frame. -/
def Frame.keys (f : Frame) : List Key :=
  f.map Prod.fst

/-- Modelled from the spec: `select(keys)` returns the sub-mapping of the
Frame restricted to the given keys, preserving order. -/
def Frame.select (f : Frame) (ks : List Key) : Frame :=
  f.filter (fun kv => ks.contains kv.1)

/-- Modelled from the spec: `update_(src)` overwrites the listed keys with
the source's values, in place; keys of `f` absent from `src` are kept. -/
def Frame.update (f : Frame) (src : Frame) : Frame :=
  f.map (fun kv =>
    match src.lookup kv.1 with
    | some v => (kv.1, v)
    | none => kv)

/-- Reading the boolean `done` entry of a Frame (`td.get ("done")`), nonzero
meaning true. -/
def Frame.getDone (f : Frame) : Bool :=
  match f.lookup "done" with
  | some v => v != 0
  | none => false

/-- Whether any worker slice of a buffer reports done:
`shared_tensordict_parent.get ("done").any()`. -/
def bufAnyDone (buf : List Frame) : Bool :=
  buf.any Frame.getDone

/-- Modelled from the spec: the simulator collaborator contract — a
deterministic state machine over states `σ` exposing reset, step, set_seed
and a termination flag.  The engine never builds simulator logic itself. -/
structure Simulator (σ : Type) where
  reset : σ → Frame × σ
  step : Frame → σ → Frame × σ
  set_seed : Int → σ → σ
  is_done : σ → Bool

/-- SerialEnv.set_seed loop: for worker `i` (starting index `i`, total `n`),
call `env.set_seed seed` and increment the seed unless this is the last
worker; returns the updated worker states and the final seed value. -/
def SerialEnv.set_seed_loop {σ : Type} (sim : Simulator σ) (n : Nat) :
    Nat → Int → List σ → List σ × Int
  | _, seed, [] => ([], seed)
  | i, seed, e :: es =>
      let e2 := sim.set_seed seed e
      let seed2 := if i < n - 1 then seed + 1 else seed
      let r := SerialEnv.set_seed_loop sim n (i + 1) seed2 es
      (e2 :: r.1, r.2)

/-- SerialEnv.set_seed: seed every in-process simulator in worker-index
order. -/
def SerialEnv.set_seed {σ : Type} (sim : Simulator σ) (envs : List σ)
    (seed : Int) : List σ × Int :=
  SerialEnv.set_seed_loop sim envs.length 0 seed envs

/-- ParallelEnv.set_seed send loop: the seed value sent on each of the `k`
remaining channels (starting index `i`, total `n`), and the seed value the
call returns after the loop. -/
def ParallelEnv.seed_sends (n : Nat) : Nat → Int → Nat → List Int × Int
  | _, seed, 0 => ([], seed)
  | i, seed, k + 1 =>
      let seed2 := if i < n - 1 then seed + 1 else seed
      let r := ParallelEnv.seed_sends n (i + 1) seed2 k
      (seed :: r.1, r.2)

/-- ParallelEnv.set_seed: send one seed per channel in worker-index order;
each worker services the message by calling `env.set_seed` on the payload and
replying `seeded`; the call returns the final seed value. -/
def ParallelEnv.set_seed {σ : Type} (sim : Simulator σ) (envs : List σ)
    (seed : Int) : List σ × Int :=
  let s := ParallelEnv.seed_sends envs.length 0 seed envs.length
  (List.zipWith (fun v e => sim.set_seed v e) s.1 envs, s.2)

/-- The `reset` branch of `_run_worker_pipe_shared_mem`: call `env.reset`,
record the produced key set, update the worker's buffer slice in place, and
reply `(reset_obs, keys)`; the worker raises fatally when the simulator still
reports done right after the reset (the reply is sent before the raise; the
model surfaces the raise as the operation's error). -/
def worker_reset {σ : Type} (sim : Simulator σ) (e : σ) (slice : Frame) :
    Except String (σ × Frame × List Key) :=
  let r := sim.reset e
  let slice2 := Frame.update slice r.1
  if sim.is_done r.2 then
    Except.error "is_done is true after reset"
  else
    Except.ok (r.2, slice2, Frame.keys r.1)

/-- SerialEnv._reset loop over `(worker state, slice, mask entry)` triples:
workers whose mask entry is false are skipped; for the others `env.reset` is
called, the slice updated in place, and the produced keys unioned (in
worker-index order). -/
def SerialEnv.reset_loop {σ : Type} (sim : Simulator σ) :
    List ((σ × Frame) × Bool) → List (σ × Frame) × List Key
  | [] => ([], [])
  | ((e, slice), m) :: rest =>
      if m then
        let r := sim.reset e
        let slice2 := Frame.update slice r.1
        let t := SerialEnv.reset_loop sim rest
        ((r.2, slice2) :: t.1, Frame.keys r.1 ++ t.2)
      else
        let t := SerialEnv.reset_loop sim rest
        ((e, slice) :: t.1, t.2)

/-- SerialEnv._reset: reset the workers selected by the mask, leave the
others untouched, and return
`shared_tensordict_parent.select(keys).clone()` — every worker's slice
restricted to the union of produced keys.  No termination-invariant check is
performed in the serial variant. -/
def SerialEnv.reset {σ : Type} (sim : Simulator σ) (envs : List σ)
    (buf : List Frame) (mask : List Bool) :
    (List σ × List Frame) × List Frame :=
  let t := SerialEnv.reset_loop sim ((envs.zip buf).zip mask)
  let buf2 := t.1.map Prod.snd
  ((t.1.map Prod.fst, buf2), buf2.map (fun r => Frame.select r t.2))

/-- ParallelEnv._reset loop: the `reset` command is sent to every worker
selected by the mask and the `(reset_obs, keys)` replies are collected in
worker-index order; a worker fault propagates. -/
def ParallelEnv.reset_loop {σ : Type} (sim : Simulator σ) :
    List ((σ × Frame) × Bool) → Except String (List (σ × Frame) × List Key)
  | [] => Except.ok ([], [])
  | ((e, slice), m) :: rest =>
      if m then
        match worker_reset sim e slice with
        | Except.error msg => Except.error msg
        | Except.ok (e2, slice2, ks) =>
            match ParallelEnv.reset_loop sim rest with
            | Except.error msg => Except.error msg
            | Except.ok (rest2, ks2) =>
                Except.ok ((e2, slice2) :: rest2, ks ++ ks2)
      else
        match ParallelEnv.reset_loop sim rest with
        | Except.error msg => Except.error msg
        | Except.ok (rest2, ks2) => Except.ok ((e, slice) :: rest2, ks2)

/-- ParallelEnv._reset: dispatch `reset` to the workers selected by the mask,
union the replied key sets, fail if the buffer still holds a set done flag
("Envs have just been reset but some are still done"), and return every
worker's slice restricted to the union of keys. -/
def ParallelEnv.reset {σ : Type} (sim : Simulator σ) (envs : List σ)
    (buf : List Frame) (mask : List Bool) :
    Except String ((List σ × List Frame) × List Frame) :=
  match ParallelEnv.reset_loop sim ((envs.zip buf).zip mask) with
  | Except.error msg => Except.error msg
  | Except.ok (pairs, ks) =>
      let buf2 := pairs.map Prod.snd
      if bufAnyDone buf2 then
        Except.error "Envs have just been reset but some are still done"
      else
        Except.ok ((pairs.map Prod.fst, buf2),
          buf2.map (fun r => Frame.select r ks))

/-- Default reset mask: `torch.ones(num_workers, 1, dtype=torch.bool)` —
every worker is selected. -/
def defaultMask (n : Nat) : List Bool :=
  List.replicate n true

/-- The sequence `seed(s); reset()` on the serial orchestrator built from one
factory (all workers start in the same state `init`), returning the Frame
batch produced by the reset. -/
def SerialEnv.seed_then_reset {σ : Type} (sim : Simulator σ) (init : σ)
    (buf : List Frame) (n : Nat) (seed : Int) : List Frame :=
  let s := SerialEnv.set_seed sim (List.replicate n init) seed
  (SerialEnv.reset sim s.1 buf (defaultMask n)).2

/-- The sequence `seed(s); reset()` on the parallel orchestrator built from
one factory, returning the Frame batch produced by the reset (or the fatal
error raised along the way). -/
def ParallelEnv.seed_then_reset {σ : Type} (sim : Simulator σ) (init : σ)
    (buf : List Frame) (n : Nat) (seed : Int) : Except String (List Frame) :=
  let s := ParallelEnv.set_seed sim (List.replicate n init) seed
  (ParallelEnv.reset sim s.1 buf (defaultMask n)).map (fun r => r.2)

/-- Errors an orchestrator step can surface. -/
inductive OrchError where
  | shapeMismatch
  | workerFault (msg : String)
deriving Repr, DecidableEq

/-- Modelled from the spec: `_assert_tensordict_shape` (defined on the
`_EnvClass` base, not among the sources) checks that the batch's leading
shape equals `[num_workers, ...]`; here, that the action batch has one row
per worker. -/
def assert_tensordict_shape (num_workers : Nat) (ab : List Frame) : Bool :=
  ab.length == num_workers

/-- Outcome of one orchestrator `_step` call: the worker indices that were
sent a command (or, serially, whose simulator was stepped), the final worker
states and buffer, and the result Frame batch or the error raised. -/
structure StepRun (σ : Type) where
  sent : List Nat
  envs : List σ
  buf : List Frame
  result : Except OrchError (List Frame)
deriving Repr

/-- SerialEnv._step body loop: `envs[i].step(shared_tensordicts[i])` — the
full slice is handed to the simulator, which writes its step result back
into the slice in place (spec: "drives its simulator, writes results back
into its slice"). -/
def SerialEnv.step_loop {σ : Type} (sim : Simulator σ) :
    List (σ × Frame) → List (σ × Frame)
  | [] => []
  | (e, slice) :: rest =>
      let r := sim.step slice e
      (r.2, Frame.update slice r.1) :: SerialEnv.step_loop sim rest

/-- SerialEnv._step: assert the batch shape, write the whole action batch
into the shared buffer (`update_(tensordict)` — not restricted to action
keys), step every simulator in worker-index order, and return the whole
`shared_tensordict_parent`. -/
def SerialEnv.step {σ : Type} (sim : Simulator σ) (n : Nat) (envs : List σ)
    (buf : List Frame) (ab : List Frame) : StepRun σ :=
  if assert_tensordict_shape n ab then
    let buf1 := List.zipWith (fun slice abrow => Frame.update slice abrow) buf ab
    let pairs := SerialEnv.step_loop sim (envs.zip buf1)
    let buf2 := pairs.map Prod.snd
    ⟨List.range envs.length, pairs.map Prod.fst, buf2, Except.ok buf2⟩
  else
    ⟨[], envs, buf, Except.error OrchError.shapeMismatch⟩

/-- The `step` branch of `_run_worker_pipe_shared_mem`: copy the action keys
out of the local slice, raise fatally if the simulator is already done, call
`env.step`, compute the updated keys as the step result's keys minus the
action keys, write the restriction of the result back into the slice, and
reply with tag `done` when the result's done entry is set, `step_result`
otherwise. -/
def worker_step {σ : Type} (sim : Simulator σ) (action_keys : List Key)
    (e : σ) (slice : Frame) :
    Except String (σ × Frame × String × List Key) :=
  let a := Frame.select slice action_keys
  if sim.is_done e then
    Except.error "calling step when env is done"
  else
    let r := sim.step a e
    let ks := (Frame.keys r.1).filter (fun k => !(action_keys.contains k))
    let slice2 := Frame.update slice (Frame.select r.1 ks)
    let msg := if Frame.getDone r.1 then "done" else "step_result"
    Except.ok (r.2, slice2, msg, ks)

/-- ParallelEnv._step reply loop: collect each worker's `(msg, keys)` reply
in worker-index order, raising on a tag that is neither `step_result` nor
`done`, and union the replied key sets. -/
def ParallelEnv.step_loop {σ : Type} (sim : Simulator σ)
    (action_keys : List Key) :
    List (σ × Frame) → Except String (List (σ × Frame) × List Key)
  | [] => Except.ok ([], [])
  | (e, slice) :: rest =>
      match worker_step sim action_keys e slice with
      | Except.error msg => Except.error msg
      | Except.ok (e2, slice2, m, ks) =>
          if m != "step_result" && m != "done" then
            Except.error "unexpected message"
          else
            match ParallelEnv.step_loop sim action_keys rest with
            | Except.error msg2 => Except.error msg2
            | Except.ok (rest2, ks2) =>
                Except.ok ((e2, slice2) :: rest2, ks ++ ks2)

/-- ParallelEnv._step: assert the batch shape, write the action batch
restricted to the action keys into the shared buffer
(`update_(tensordict.select(action_keys))`), send `step` to every worker,
union the replied updated-key sets, and return the shared buffer restricted
to the union. -/
def ParallelEnv.step {σ : Type} (sim : Simulator σ) (action_keys : List Key)
    (n : Nat) (envs : List σ) (buf : List Frame) (ab : List Frame) :
    StepRun σ :=
  if assert_tensordict_shape n ab then
    let buf1 := List.zipWith
      (fun slice abrow => Frame.update slice (Frame.select abrow action_keys))
      buf ab
    match ParallelEnv.step_loop sim action_keys (envs.zip buf1) with
    | Except.error msg =>
        ⟨List.range envs.length, envs, buf1,
          Except.error (OrchError.workerFault msg)⟩
    | Except.ok (pairs, ks) =>
        let buf2 := pairs.map Prod.snd
        ⟨List.range envs.length, pairs.map Prod.fst, buf2,
          Except.ok (buf2.map (fun r => Frame.select r ks))⟩
  else
    ⟨[], envs, buf, Except.error OrchError.shapeMismatch⟩

/-- The step result a worker's simulator produces for its current slice:
`env.step` applied to the action keys copied out of the slice. -/
def workerStepResult {σ : Type} (sim : Simulator σ) (aks : List Key) (e : σ)
    (slice : Frame) : Frame × σ :=
  sim.step (Frame.select slice aks) e

/-- The updated-key set a worker replies with: the step result's keys minus
the action keys. -/
def workerStepKeys {σ : Type} (sim : Simulator σ) (aks : List Key) (e : σ)
    (slice : Frame) : List Key :=
  (Frame.keys (workerStepResult sim aks e slice).1).filter
    (fun k => !(aks.contains k))

/-- The worker's slice after it writes the restriction of its step result
back into shared memory. -/
def workerStepSlice {σ : Type} (sim : Simulator σ) (aks : List Key) (e : σ)
    (slice : Frame) : Frame :=
  Frame.update slice
    (Frame.select (workerStepResult sim aks e slice).1
      (workerStepKeys sim aks e slice))

/-- Specification-side description of `step` for claim C2, following the
claim's words: write the action batch restricted to the action keys into the
buffer, let every worker write back its step result minus the action keys,
and return the buffer restricted to the union of the per-worker updated-key
sets.  To be compared against the two orchestrator implementations. -/
def stepSpec {σ : Type} (sim : Simulator σ) (aks : List Key) (envs : List σ)
    (buf ab : List Frame) : List Frame × List Frame :=
  let buf1 := List.zipWith
    (fun slice abrow => Frame.update slice (Frame.select abrow aks)) buf ab
  let pairs := (envs.zip buf1).map
    (fun x => ((workerStepResult sim aks x.1 x.2).2,
      workerStepSlice sim aks x.1 x.2))
  let updated := (envs.zip buf1).map
    (fun x => workerStepKeys sim aks x.1 x.2)
  let buf2 := pairs.map Prod.snd
  (buf2, buf2.map (fun r => Frame.select r updated.flatten))

/-- The lifecycle flag of `_BatchedEnv`: `is_closed`, set to `True` by the
constructor before any worker exists. -/
structure Lifecycle where
  is_closed : Bool
deriving Repr, DecidableEq

/-- The state `_BatchedEnv.__init__` leaves behind: `self.is_closed = True`. -/
def BatchedEnv.init_lifecycle : Lifecycle :=
  ⟨true⟩

/-- _BatchedEnv.close: raises "trying to close a closed environment" when the
orchestrator is already closed (the flag, and hence the state, is left
unchanged by the raise); otherwise shuts the workers down and marks the
orchestrator closed. -/
def BatchedEnv.close (st : Lifecycle) : Lifecycle × Option String :=
  if st.is_closed then (st, some "trying to close a closed environment")
  else (⟨true⟩, none)

/-- Repeated `close()` calls after an initial state: `close_iter st k` is the
outcome of the `(k+1)`-th consecutive `close()` starting from `st`. -/
def BatchedEnv.close_iter (st : Lifecycle) : Nat → Lifecycle × Option String
  | 0 => BatchedEnv.close st
  | k + 1 => BatchedEnv.close (BatchedEnv.close_iter st k).1

/-- The default for the selected-key set in `_BatchedEnv._create_td` when no
explicit list is given: every key of the trial Frame, minus the excluded
keys when an exclude-list is present. -/
def BatchedEnv.default_selected (all_keys : List Key)
    (excluded_keys : Option (List Key)) : List Key :=
  match excluded_keys with
  | some ex => all_keys.filter (fun k => !(ex.contains k))
  | none => all_keys

/-- The key-resolution part of `_BatchedEnv._create_td`: when no selected
keys are given they default to every key of the trial Frame minus the
excluded keys, and only then are explicit action keys validated to be a
subset of the selected keys (else the KeyError) or defaulted to the keys
starting with "action" (raising when there are none); an explicit
selected-key list is taken as is and skips every one of those checks. -/
def BatchedEnv.resolve_keys (all_keys : List Key)
    (selected_keys excluded_keys action_keys : Option (List Key)) :
    Except String (List Key × Option (List Key)) :=
  match selected_keys with
  | none =>
      let sel := BatchedEnv.default_selected all_keys excluded_keys
      match action_keys with
      | some aks =>
          if aks.all (fun a => sel.contains a) then Except.ok (sel, some aks)
          else Except.error "One of the action keys is not part of the selected keys"
      | none =>
          let aks := sel.filter (fun k => k.startsWith "action")
          if aks.isEmpty then Except.error "found 0 action keys"
          else Except.ok (sel, some aks)
  | some sel => Except.ok (sel, action_keys)

/-- The `_check_start` decorator: on a closed orchestrator, `_create_td()`
runs first and `_start_workers()` only after it; the returned flag records
whether the workers were started, and an error from `_create_td` leaves the
lifecycle state unchanged with no worker started. -/
def check_start (st : Lifecycle) (create_td : Except String Unit) :
    Lifecycle × Bool × Option String :=
  if st.is_closed then
    match create_td with
    | Except.error e => (st, false, some e)
    | Except.ok _ => (⟨false⟩, true, none)
  else
    (st, false, none)

/-- A concrete deterministic simulator over integer states, used to evaluate
the theorems on closed inputs: the state is the last seed set, reset reports
the state as the observation, step increments it. -/
def simConst : Simulator Int where
  reset := fun e => ([("observation", e), ("done", 0)], e)
  step := fun _ e => ([("observation", e + 1), ("done", 0)], e + 1)
  set_seed := fun v _ => v
  is_done := fun _ => false

/-- A concrete simulator whose termination flag is still set right after a
reset, violating the reset invariant. -/
def simStuckDone : Simulator Unit where
  reset := fun _ => ([("done", 1)], ())
  step := fun _ _ => ([("done", 1)], ())
  set_seed := fun _ e => e
  is_done := fun _ => true

lemma contains_iff_mem (l : List Key) (k : Key) : l.contains k = true ↔ k ∈ l :=
  List.elem_iff

lemma set_seed_loop_length {σ : Type} (sim : Simulator σ) (n : Nat)
    (l : List σ) :
    ∀ (i : Nat) (seed : Int),
      (SerialEnv.set_seed_loop sim n i seed l).1.length = l.length := by
  induction l with
  | nil =>
      intro i seed
      rfl
  | cons e es ih =>
      intro i seed
      simp only [SerialEnv.set_seed_loop, List.length_cons]
      rw [ih]

lemma set_seed_loop_getElem {σ : Type} (sim : Simulator σ) (n : Nat)
    (l : List σ) :
    ∀ (i : Nat) (seed : Int) (j : Nat), i + l.length = n →
      (SerialEnv.set_seed_loop sim n i seed l).1[j]?
        = (l[j]?).map (fun e => sim.set_seed (seed + j) e) := by
  induction l with
  | nil =>
      intro i seed j _
      simp [SerialEnv.set_seed_loop]
  | cons e es ih =>
      intro i seed j h
      cases j with
      | zero =>
          simp [SerialEnv.set_seed_loop]
      | succ j =>
          by_cases hne : es = []
          · subst hne
            simp [SerialEnv.set_seed_loop]
          · have hlt : i < n - 1 := by
              have hpos : 0 < es.length := List.length_pos.mpr hne
              simp at h
              omega
            have hrec := ih (i + 1) (seed + 1) j (by simp at h ⊢; omega)
            simp only [SerialEnv.set_seed_loop, List.getElem?_cons_succ]
            rw [if_pos hlt, hrec]
            congr 1
            funext x
            congr 1
            push_cast
            ring

lemma set_seed_loop_ret {σ : Type} (sim : Simulator σ) (n : Nat)
    (l : List σ) :
    ∀ (i : Nat) (seed : Int), i + l.length = n → l ≠ [] →
      (SerialEnv.set_seed_loop sim n i seed l).2 = seed + l.length - 1 := by
  induction l with
  | nil =>
      intro i seed _ hne
      exact absurd rfl hne
  | cons e es ih =>
      intro i seed h _
      by_cases hne : es = []
      · subst hne
        have hni : ¬ i < n - 1 := by
          simp at h
          omega
        simp [SerialEnv.set_seed_loop, hni]
      · have hlt : i < n - 1 := by
          have hpos : 0 < es.length := List.length_pos.mpr hne
          simp at h
          omega
        have hrec := ih (i + 1) (seed + 1) (by simp at h ⊢; omega) hne
        simp only [SerialEnv.set_seed_loop]
        rw [if_pos hlt, hrec]
        simp only [List.length_cons]
        push_cast
        ring

lemma seed_sends_agree {σ : Type} (sim : Simulator σ) (n : Nat)
    (l : List σ) :
    ∀ (i : Nat) (seed : Int),
      (ParallelEnv.seed_sends n i seed l.length).2
          = (SerialEnv.set_seed_loop sim n i seed l).2
        ∧ List.zipWith (fun v e => sim.set_seed v e)
            (ParallelEnv.seed_sends n i seed l.length).1 l
          = (SerialEnv.set_seed_loop sim n i seed l).1 := by
  induction l with
  | nil =>
      intro i seed
      simp [ParallelEnv.seed_sends, SerialEnv.set_seed_loop]
  | cons e es ih =>
      intro i seed
      have hrec := ih (i + 1) (if i < n - 1 then seed + 1 else seed)
      constructor
      · simp only [List.length_cons, ParallelEnv.seed_sends,
          SerialEnv.set_seed_loop]
        exact hrec.1
      · simp only [List.length_cons, ParallelEnv.seed_sends,
          SerialEnv.set_seed_loop, List.zipWith_cons_cons]
        rw [hrec.2]

lemma par_set_seed_eq_serial {σ : Type} (sim : Simulator σ) (envs : List σ)
    (seed : Int) :
    ParallelEnv.set_seed sim envs seed = SerialEnv.set_seed sim envs seed := by
  have h := seed_sends_agree sim envs.length envs 0 seed
  simp only [ParallelEnv.set_seed, SerialEnv.set_seed]
  exact Prod.ext h.2 h.1

/-- C5: `seed (value)` assigns seed `value + i` to worker `i` in
worker-index order on the serial orchestrator, the parallel orchestrator
dispatches identically, and the call returns `value + N - 1`. -/
theorem seed_increment_per_worker {σ : Type} (sim : Simulator σ)
    (envs : List σ) (s : Int) (h : 0 < envs.length) :
    (SerialEnv.set_seed sim envs s).1
        = envs.mapIdx (fun i e => sim.set_seed (s + i) e)
      ∧ (SerialEnv.set_seed sim envs s).2 = s + envs.length - 1
      ∧ ParallelEnv.set_seed sim envs s = SerialEnv.set_seed sim envs s := by
  have hne : envs ≠ [] := by
    cases envs with
    | nil => simp at h
    | cons e es => simp
  refine ⟨?_, ?_, par_set_seed_eq_serial sim envs s⟩
  · apply List.ext_getElem?
    intro j
    simp only [SerialEnv.set_seed]
    rw [set_seed_loop_getElem sim envs.length envs 0 s j (by omega)]
    rw [List.getElem?_mapIdx]
  · exact set_seed_loop_ret sim envs.length envs 0 s (by omega) hne

/-- Witness for C5 at the spec scenario: three workers, seed 10, seeds
10, 11, 12 assigned and 12 returned. -/
theorem seed_increment_per_worker_witness :
    0 < ([0, 0, 0] : List Int).length
      ∧ ((SerialEnv.set_seed simConst [0, 0, 0] 10).1
            = ([0, 0, 0] : List Int).mapIdx (fun i e => simConst.set_seed (10 + i) e)
          ∧ (SerialEnv.set_seed simConst [0, 0, 0] 10).2
            = 10 + ([0, 0, 0] : List Int).length - 1
          ∧ ParallelEnv.set_seed simConst [0, 0, 0] 10
            = SerialEnv.set_seed simConst [0, 0, 0] 10) :=
  ⟨by decide, seed_increment_per_worker simConst [0, 0, 0] 10 (by decide)⟩

/-- C6: a step whose action batch does not have one row per worker raises
the shape-mismatch error with no command sent to any worker and the shared
buffer untouched, on both orchestrator variants. -/
theorem step_shape_mismatch_fails_first {σ : Type} (sim : Simulator σ)
    (aks : List Key) (n : Nat) (envs : List σ) (buf ab : List Frame)
    (h : ab.length ≠ n) :
    SerialEnv.step sim n envs buf ab
        = ⟨[], envs, buf, Except.error OrchError.shapeMismatch⟩
      ∧ ParallelEnv.step sim aks n envs buf ab
        = ⟨[], envs, buf, Except.error OrchError.shapeMismatch⟩ := by
  have hb : assert_tensordict_shape n ab = false := by
    simp [assert_tensordict_shape, h]
  constructor
  · simp [SerialEnv.step, hb]
  · simp [ParallelEnv.step, hb]

/-- Witness for C6: a two-row action batch against one worker fails on both
variants with no send and no buffer write. -/
theorem step_shape_mismatch_fails_first_witness :
    (([([("action", 0)] : Frame), [("action", 1)]] : List Frame).length ≠ 1)
      ∧ (SerialEnv.step simConst 1 [0] [[("action", 0), ("done", 0)]]
            [[("action", 0)], [("action", 1)]]
          = ⟨[], [0], [[("action", 0), ("done", 0)]],
              Except.error OrchError.shapeMismatch⟩
        ∧ ParallelEnv.step simConst ["action"] 1 [0]
            [[("action", 0), ("done", 0)]] [[("action", 0)], [("action", 1)]]
          = ⟨[], [0], [[("action", 0), ("done", 0)]],
              Except.error OrchError.shapeMismatch⟩) :=
  ⟨by decide,
    step_shape_mismatch_fails_first simConst ["action"] 1 [0]
      [[("action", 0), ("done", 0)]] [[("action", 0)], [("action", 1)]]
      (by decide)⟩

/-- C9 counterpart lemma is not needed: the claim is settled directly.
C9: once a `close()` has succeeded, every further `close()` without an
intervening reset/step raises the already-closed lifecycle error and leaves
the closed flag set. -/
theorem close_after_close_raises (st st2 : Lifecycle)
    (h : BatchedEnv.close st = (st2, none)) (k : Nat) :
    BatchedEnv.close_iter st2 k
      = (st2, some "trying to close a closed environment") := by
  have hst2 : st2 = ⟨true⟩ := by
    cases st with
    | mk b =>
        cases b with
        | false =>
            simp [BatchedEnv.close] at h
            cases st2 with
            | mk b2 => simp_all
        | true =>
            simp [BatchedEnv.close] at h
  induction k with
  | zero =>
      rw [BatchedEnv.close_iter, BatchedEnv.close, hst2]
      simp
  | succ k ihk =>
      rw [BatchedEnv.close_iter, ihk, BatchedEnv.close, hst2]
      simp

/-- Witness for C9: close an open orchestrator, then close twice more —
both subsequent calls raise. -/
theorem close_after_close_raises_witness :
    BatchedEnv.close ⟨false⟩ = (⟨true⟩, none)
      ∧ BatchedEnv.close_iter ⟨true⟩ 1
        = (⟨true⟩, some "trying to close a closed environment") :=
  ⟨by decide, close_after_close_raises ⟨false⟩ ⟨true⟩ (by decide) 1⟩

/-- C10: the constructor initializes the closed flag to true, so the very
first `close()` after construction raises the already-closed lifecycle
error with the state unchanged, although no worker was ever started. -/
theorem close_fresh_raises :
    BatchedEnv.init_lifecycle.is_closed = true
      ∧ BatchedEnv.close BatchedEnv.init_lifecycle
        = (BatchedEnv.init_lifecycle,
            some "trying to close a closed environment") := by
  constructor
  · rfl
  · decide

/-- Counterexample for C4: with an explicit selected-key list, start-up
performs no action-key validation at all — an action key outside the
selected keys is accepted and the workers are started. -/
theorem resolve_keys_counterexample :
    (["observation"] : List Key).contains "action" = false
      ∧ BatchedEnv.resolve_keys ["observation", "done", "action"]
          (some ["observation"]) none (some ["action"])
        = Except.ok (["observation"], some ["action"])
      ∧ check_start BatchedEnv.init_lifecycle
          ((BatchedEnv.resolve_keys ["observation", "done", "action"]
            (some ["observation"]) none (some ["action"])).map (fun _ => ()))
        = (⟨false⟩, true, none) := by
  refine ⟨by decide, by rfl, by decide⟩

/-- C4 (amended): only when the selected keys are defaulted (no explicit
list) does start-up validate the action keys against the derived selected
keys; in that configuration a stray action key raises the KeyError from
`_create_td`, before `_start_workers` runs, so no worker is started. -/
theorem resolve_keys_validation (all_keys : List Key)
    (ex : Option (List Key)) (aks : List Key)
    (h : ¬ ∀ a ∈ aks, a ∈ BatchedEnv.default_selected all_keys ex) :
    BatchedEnv.resolve_keys all_keys none ex (some aks)
        = Except.error "One of the action keys is not part of the selected keys"
      ∧ check_start BatchedEnv.init_lifecycle
          ((BatchedEnv.resolve_keys all_keys none ex (some aks)).map
            (fun _ => ()))
        = (BatchedEnv.init_lifecycle, false,
            some "One of the action keys is not part of the selected keys") := by
  have hall : aks.all
      (fun a => (BatchedEnv.default_selected all_keys ex).contains a)
      = false := by
    cases hb : aks.all
        (fun a => (BatchedEnv.default_selected all_keys ex).contains a) with
    | false => rfl
    | true =>
        exact absurd
          (fun a ha =>
            (contains_iff_mem _ a).mp (List.all_eq_true.mp hb a ha)) h
  have hres : BatchedEnv.resolve_keys all_keys none ex (some aks)
      = Except.error "One of the action keys is not part of the selected keys" := by
    simp only [BatchedEnv.resolve_keys]
    rw [hall]
    simp
  refine ⟨hres, ?_⟩
  rw [hres]
  decide

/-- Witness for C4 (amended): defaulted selected keys with no "action" key
available and an explicit stray action key. -/
theorem resolve_keys_validation_witness :
    (¬ ∀ a ∈ (["action"] : List Key),
        a ∈ BatchedEnv.default_selected ["observation", "done"] none)
      ∧ (BatchedEnv.resolve_keys ["observation", "done"] none none
            (some ["action"])
          = Except.error "One of the action keys is not part of the selected keys"
        ∧ check_start BatchedEnv.init_lifecycle
            ((BatchedEnv.resolve_keys ["observation", "done"] none none
              (some ["action"])).map (fun _ => ()))
          = (BatchedEnv.init_lifecycle, false,
              some "One of the action keys is not part of the selected keys")) :=
  ⟨by decide, resolve_keys_validation ["observation", "done"] none ["action"]
    (by decide)⟩

lemma reset_loop_par_ok {σ : Type} (sim : Simulator σ) :
    ∀ (l : List ((σ × Frame) × Bool)) (r : List (σ × Frame) × List Key),
      ParallelEnv.reset_loop sim l = Except.ok r →
      SerialEnv.reset_loop sim l = r := by
  intro l
  induction l with
  | nil =>
      intro r hr
      simp only [ParallelEnv.reset_loop] at hr
      simp only [SerialEnv.reset_loop]
      exact (Except.ok.injEq _ _).mp hr
  | cons x rest ih =>
      intro r hr
      obtain ⟨⟨e, slice⟩, m⟩ := x
      cases m with
      | false =>
          simp only [ParallelEnv.reset_loop] at hr
          cases htail : ParallelEnv.reset_loop sim rest with
          | error msg =>
              rw [htail] at hr
              simp at hr
          | ok t =>
              rw [htail] at hr
              obtain ⟨pairs, ks⟩ := t
              simp at hr
              have hs := ih (pairs, ks) htail
              simp only [SerialEnv.reset_loop]
              simp [hs, ← hr]
      | true =>
          simp only [ParallelEnv.reset_loop] at hr
          cases hw : sim.is_done (sim.reset e).2 with
          | true =>
              have hwr : worker_reset sim e slice
                  = Except.error "is_done is true after reset" := by
                simp [worker_reset, hw]
              rw [hwr] at hr
              simp at hr
          | false =>
              have hwr : worker_reset sim e slice
                  = Except.ok ((sim.reset e).2,
                      Frame.update slice (sim.reset e).1,
                      Frame.keys (sim.reset e).1) := by
                simp [worker_reset, hw]
              rw [hwr] at hr
              cases htail : ParallelEnv.reset_loop sim rest with
              | error msg =>
                  rw [htail] at hr
                  simp at hr
              | ok t =>
                  rw [htail] at hr
                  obtain ⟨pairs, ks⟩ := t
                  simp at hr
                  have hs := ih (pairs, ks) htail
                  simp only [SerialEnv.reset_loop]
                  simp [hs, ← hr]

lemma reset_loop_fst {σ : Type} (sim : Simulator σ) :
    ∀ (l : List ((σ × Frame) × Bool)),
      (SerialEnv.reset_loop sim l).1
        = l.map (fun x =>
            if x.2 then
              ((sim.reset x.1.1).2, Frame.update x.1.2 (sim.reset x.1.1).1)
            else x.1) := by
  intro l
  induction l with
  | nil => rfl
  | cons x rest ih =>
      obtain ⟨⟨e, slice⟩, m⟩ := x
      cases m with
      | false => simp [SerialEnv.reset_loop, ih]
      | true => simp [SerialEnv.reset_loop, ih]

lemma reset_loop_err {σ : Type} (sim : Simulator σ) :
    ∀ (l : List ((σ × Frame) × Bool)),
      (∃ x ∈ l, x.2 = true ∧ sim.is_done (sim.reset x.1.1).2 = true) →
      ∃ msg, ParallelEnv.reset_loop sim l = Except.error msg := by
  intro l
  induction l with
  | nil =>
      intro h
      simp at h
  | cons x rest ih =>
      intro h
      obtain ⟨⟨e, slice⟩, m⟩ := x
      rcases h with ⟨y, hy, hsel, hdone⟩
      rcases List.mem_cons.mp hy with hhead | htail
      · subst hhead
        refine ⟨"is_done is true after reset", ?_⟩
        simp at hsel
        simp [ParallelEnv.reset_loop, hsel, worker_reset, hdone]
      · obtain ⟨msg, hmsg⟩ := ih ⟨y, htail, hsel, hdone⟩
        cases m with
        | false =>
            exact ⟨msg, by simp [ParallelEnv.reset_loop, hmsg]⟩
        | true =>
            cases hw : sim.is_done (sim.reset e).2 with
            | true =>
                exact ⟨"is_done is true after reset",
                  by simp [ParallelEnv.reset_loop, worker_reset, hw]⟩
            | false =>
                refine ⟨msg, ?_⟩
                have hwr : worker_reset sim e slice
                    = Except.ok ((sim.reset e).2,
                        Frame.update slice (sim.reset e).1,
                        Frame.keys (sim.reset e).1) := by
                  simp [worker_reset, hw]
                simp only [ParallelEnv.reset_loop]
                rw [hwr, hmsg]
                simp

lemma par_reset_ok {σ : Type} (sim : Simulator σ) (envs : List σ)
    (buf : List Frame) (mask : List Bool)
    (res : (List σ × List Frame) × List Frame)
    (h : ParallelEnv.reset sim envs buf mask = Except.ok res) :
    SerialEnv.reset sim envs buf mask = res := by
  simp only [ParallelEnv.reset] at h
  cases hl : ParallelEnv.reset_loop sim ((envs.zip buf).zip mask) with
  | error msg =>
      rw [hl] at h
      simp at h
  | ok t =>
      obtain ⟨pairs, ks⟩ := t
      rw [hl] at h
      by_cases hd : bufAnyDone (pairs.map Prod.snd)
      · simp [hd] at h
      · simp [hd] at h
        have hs := reset_loop_par_ok sim _ (pairs, ks) hl
        rw [← h]
        simp [SerialEnv.reset, hs]

/-- C1: whenever `seed(s); reset()` on the parallel orchestrator completes
with a Frame batch, the same sequence on the serial orchestrator built from
the same factory (same initial simulator state, buffer, worker count and
seed) yields the identical Frame batch. -/
theorem seed_reset_parallel_refines_serial {σ : Type} (sim : Simulator σ)
    (init : σ) (buf : List Frame) (n : Nat) (s : Int) (fr : List Frame)
    (h : ParallelEnv.seed_then_reset sim init buf n s = Except.ok fr) :
    SerialEnv.seed_then_reset sim init buf n s = fr := by
  simp only [ParallelEnv.seed_then_reset] at h
  rw [par_set_seed_eq_serial] at h
  cases hres : ParallelEnv.reset sim
      (SerialEnv.set_seed sim (List.replicate n init) s).1 buf
      (defaultMask n) with
  | error msg =>
      rw [hres] at h
      simp [Except.map] at h
  | ok res =>
      rw [hres] at h
      simp [Except.map] at h
      have hs := par_reset_ok sim _ buf (defaultMask n) res hres
      simp only [SerialEnv.seed_then_reset]
      rw [hs]
      exact h

/-- Witness for C1: two workers seeded from 10 observe 10 and 11 after the
reset, identically on both orchestrators. -/
theorem seed_reset_parallel_refines_serial_witness :
    ParallelEnv.seed_then_reset simConst 0
        [[("observation", 100), ("done", 0), ("action", 0)],
          [("observation", 100), ("done", 0), ("action", 0)]] 2 10
      = Except.ok
          [[("observation", 10), ("done", 0)], [("observation", 11), ("done", 0)]]
      ∧ SerialEnv.seed_then_reset simConst 0
          [[("observation", 100), ("done", 0), ("action", 0)],
            [("observation", 100), ("done", 0), ("action", 0)]] 2 10
        = [[("observation", 10), ("done", 0)], [("observation", 11), ("done", 0)]] :=
  ⟨by rfl,
    seed_reset_parallel_refines_serial simConst 0
      [[("observation", 100), ("done", 0), ("action", 0)],
        [("observation", 100), ("done", 0), ("action", 0)]] 2 10
      [[("observation", 10), ("done", 0)], [("observation", 11), ("done", 0)]]
      (by rfl)⟩

lemma getElemBang_pos {α : Type} [Inhabited α] (l : List α) (i : Nat)
    (h : i < l.length) : l[i]! = l[i] :=
  getElem!_pos l i h

lemma serial_reset_buf_eq {σ : Type} (sim : Simulator σ)
    (envs : List σ) (buf : List Frame) (mask : List Bool) :
    (SerialEnv.reset sim envs buf mask).1.2
      = ((envs.zip buf).zip mask).map (fun x =>
          if x.2 then Frame.update x.1.2 (sim.reset x.1.1).1 else x.1.2) := by
  simp only [SerialEnv.reset]
  rw [reset_loop_fst, List.map_map]
  congr 1
  funext x
  by_cases hx : x.2
  · simp [hx]
  · simp [hx]

lemma serial_reset_buf_getElem {σ : Type} [Inhabited σ] (sim : Simulator σ)
    (envs : List σ) (buf : List Frame) (mask : List Bool) (i : Nat)
    (hEB : envs.length = buf.length) (hMB : mask.length = buf.length)
    (hi : i < buf.length) :
    ((SerialEnv.reset sim envs buf mask).1.2)[i]!
      = if mask[i]! then Frame.update buf[i]! (sim.reset envs[i]!).1
        else buf[i]! := by
  have hie : i < envs.length := by rw [hEB]; exact hi
  have him : i < mask.length := by rw [hMB]; exact hi
  have hzb : i < (envs.zip buf).length := by
    rw [List.length_zip]
    exact lt_min hie hi
  have hiL : i < ((envs.zip buf).zip mask).length := by
    rw [List.length_zip]
    exact lt_min hzb him
  rw [serial_reset_buf_eq]
  rw [getElemBang_pos _ i (by simpa using hiL), getElemBang_pos buf i hi,
    getElemBang_pos envs i hie, getElemBang_pos mask i him]
  rw [List.getElem_map, List.getElem_zip, List.getElem_zip]

/-- C7: a masked reset leaves the buffer slice of every unselected worker
unchanged, while the slice of every selected worker is its old slice updated
in place with that worker's fresh reset output — on the serial orchestrator,
and on the parallel orchestrator whenever the call completes. -/
theorem reset_mask_untouched {σ : Type} [Inhabited σ] (sim : Simulator σ) (envs : List σ)
    (buf : List Frame) (mask : List Bool) (i : Nat)
    (hEB : envs.length = buf.length) (hMB : mask.length = buf.length)
    (hi : i < buf.length) :
    (mask[i]! = false →
      ((SerialEnv.reset sim envs buf mask).1.2)[i]! = buf[i]!
        ∧ ∀ res, ParallelEnv.reset sim envs buf mask = Except.ok res →
            (res.1.2)[i]! = buf[i]!)
      ∧ (mask[i]! = true →
        ((SerialEnv.reset sim envs buf mask).1.2)[i]!
            = Frame.update buf[i]! (sim.reset envs[i]!).1
          ∧ ∀ res, ParallelEnv.reset sim envs buf mask = Except.ok res →
              (res.1.2)[i]!
                = Frame.update buf[i]! (sim.reset envs[i]!).1) := by
  have hchar := serial_reset_buf_getElem sim envs buf mask i hEB hMB hi
  constructor
  · intro hm
    rw [hm] at hchar
    simp at hchar
    refine ⟨hchar, ?_⟩
    intro res hres
    rw [← par_reset_ok sim envs buf mask res hres]
    exact hchar
  · intro hm
    rw [hm] at hchar
    simp at hchar
    refine ⟨hchar, ?_⟩
    intro res hres
    rw [← par_reset_ok sim envs buf mask res hres]
    exact hchar

/-- Witness for C7 at the spec scenario: two workers, mask `[true, false]` —
worker 1's slice still shows the old observation, worker 0's slice is
freshly reset. -/
theorem reset_mask_untouched_witness :
    (([true, false] : List Bool)[1]! = false
      ∧ ((SerialEnv.reset simConst [5, 6]
            [[("observation", 50), ("done", 0)], [("observation", 60), ("done", 0)]]
            [true, false]).1.2)[1]!
          = [("observation", 60), ("done", 0)]
      ∧ ((SerialEnv.reset simConst [5, 6]
            [[("observation", 50), ("done", 0)], [("observation", 60), ("done", 0)]]
            [true, false]).1.2)[0]!
          = [("observation", 5), ("done", 0)]) :=
  ⟨by rfl,
    ((reset_mask_untouched simConst [5, 6]
        [[("observation", 50), ("done", 0)], [("observation", 60), ("done", 0)]]
        [true, false] 1 (by rfl) (by rfl) (by decide)).1 (by rfl)).1,
    by
      have h := ((reset_mask_untouched simConst [5, 6]
        [[("observation", 50), ("done", 0)], [("observation", 60), ("done", 0)]]
        [true, false] 0 (by rfl) (by rfl) (by decide)).2 (by rfl)).1
      rw [h]
      rfl⟩

/-- Counterexample for C3: the serial orchestrator performs no
done-after-reset invariant check.  With a simulator whose termination flag
is still set right after reset, `SerialEnv._reset` completes normally and
returns the frames (its code path contains no check and no error), so the
violation is not fatal on the serial variant. -/
theorem serial_reset_no_done_check :
    simStuckDone.is_done ((simStuckDone.reset ()).2) = true
      ∧ SerialEnv.reset simStuckDone [()] [[("done", 0)]] [true]
        = (([()], [[("done", 1)]]), [[("done", 1)]]) := by
  exact ⟨rfl, by rfl⟩

/-- C3 (amended): on the parallel orchestrator, a reset in which some
selected worker's simulator still reports terminated right after its reset
fails fatally (the worker raises, surfaced as the operation's error; the
orchestrator additionally re-raises when the buffer's done column is set).
The serial orchestrator performs no such check. -/
theorem parallel_reset_done_fatal {σ : Type} [Inhabited σ] (sim : Simulator σ)
    (envs : List σ) (buf : List Frame) (mask : List Bool) (i : Nat)
    (hie : i < envs.length) (hib : i < buf.length) (him : i < mask.length)
    (hsel : mask[i]! = true)
    (hdone : sim.is_done ((sim.reset envs[i]!).2) = true) :
    ∃ msg, ParallelEnv.reset sim envs buf mask = Except.error msg := by
  have hzb : i < (envs.zip buf).length := by
    rw [List.length_zip]
    exact lt_min hie hib
  have hiL : i < ((envs.zip buf).zip mask).length := by
    rw [List.length_zip]
    exact lt_min hzb him
  have hmem : ((envs.zip buf).zip mask)[i] ∈ (envs.zip buf).zip mask :=
    List.getElem_mem hiL
  have hx : ((envs.zip buf).zip mask)[i]
      = ((envs[i], buf[i]), mask[i]) := by
    rw [List.getElem_zip, List.getElem_zip]
  obtain ⟨msg, hmsg⟩ := reset_loop_err sim ((envs.zip buf).zip mask)
    ⟨((envs.zip buf).zip mask)[i], hmem, by
      rw [hx]
      rw [getElem!_pos mask i him] at hsel
      exact hsel, by
      rw [hx]
      rw [getElem!_pos envs i hie] at hdone
      exact hdone⟩
  exact ⟨msg, by simp [ParallelEnv.reset, hmsg]⟩

/-- Witness for C3 (amended): one worker whose simulator stays done after
reset makes the parallel reset fail. -/
theorem parallel_reset_done_fatal_witness :
    (0 < ([()] : List Unit).length
      ∧ ([true] : List Bool)[0]! = true
      ∧ simStuckDone.is_done ((simStuckDone.reset ([()] : List Unit)[0]!).2)
          = true)
      ∧ ∃ msg, ParallelEnv.reset simStuckDone [()] [[("done", 0)]] [true]
          = Except.error msg :=
  ⟨⟨by decide, by rfl, by rfl⟩,
    parallel_reset_done_fatal simStuckDone [()] [[("done", 0)]] [true] 0
      (by decide) (by decide) (by decide) (by rfl) (by rfl)⟩

lemma bnot_contains_iff (l : List Key) (k : Key) :
    ((!(l.contains k)) = true) ↔ k ∉ l := by
  cases h : l.contains k with
  | true => simp [(contains_iff_mem l k).mp h]
  | false =>
      simp only [h, Bool.not_false]
      simp only [true_iff]
      intro hm
      rw [(contains_iff_mem l k).mpr hm] at h
      cases h

lemma worker_step_ok {σ : Type} (sim : Simulator σ) (aks : List Key) (e : σ)
    (slice : Frame) (h : sim.is_done e = false) :
    worker_step sim aks e slice
      = Except.ok ((workerStepResult sim aks e slice).2,
          workerStepSlice sim aks e slice,
          (if Frame.getDone (workerStepResult sim aks e slice).1 then "done"
            else "step_result"),
          workerStepKeys sim aks e slice) := by
  simp [worker_step, workerStepResult, workerStepKeys, workerStepSlice, h]

lemma pstep_loop_ok {σ : Type} (sim : Simulator σ) (aks : List Key) :
    ∀ (l : List (σ × Frame)), (∀ x ∈ l, sim.is_done x.1 = false) →
      ParallelEnv.step_loop sim aks l
        = Except.ok
            (l.map (fun x => ((workerStepResult sim aks x.1 x.2).2,
              workerStepSlice sim aks x.1 x.2)),
            (l.map (fun x => workerStepKeys sim aks x.1 x.2)).flatten) := by
  intro l
  induction l with
  | nil =>
      intro _
      simp [ParallelEnv.step_loop]
  | cons x rest ih =>
      intro h
      obtain ⟨e, slice⟩ := x
      have hx : sim.is_done e = false := h (e, slice) (List.mem_cons_self _ _)
      have hrest := ih (fun y hy => h y (List.mem_cons_of_mem _ hy))
      simp only [ParallelEnv.step_loop]
      rw [worker_step_ok sim aks e slice hx]
      cases hd : Frame.getDone (workerStepResult sim aks e slice).1 with
      | true => simp [hd, hrest]
      | false => simp [hd, hrest]

lemma step_loop_eq_map {σ : Type} (sim : Simulator σ) :
    ∀ (l : List (σ × Frame)),
      SerialEnv.step_loop sim l
        = l.map (fun x =>
            ((sim.step x.2 x.1).2, Frame.update x.2 (sim.step x.2 x.1).1)) := by
  intro l
  induction l with
  | nil => rfl
  | cons x rest ih =>
      obtain ⟨e, slice⟩ := x
      simp [SerialEnv.step_loop, ih]

lemma lookup_update (f src : Frame) (k : Key) :
    List.lookup k (Frame.update f src)
      = (List.lookup k f).map (fun v => ((List.lookup k src).getD v)) := by
  induction f with
  | nil => rfl
  | cons kv rest ih =>
      obtain ⟨k1, v1⟩ := kv
      cases hk : k == k1 with
      | true =>
          have hkeq : k = k1 := beq_iff_eq.mp hk
          subst hkeq
          cases hsrc : List.lookup k src with
          | some v => simp [Frame.update, List.lookup, hsrc]
          | none => simp [Frame.update, List.lookup, hsrc]
      | false =>
          simp only [Frame.update] at ih ⊢
          cases hsrc : List.lookup k1 src with
          | some v => simp [List.lookup, hk, hsrc, ih]
          | none => simp [List.lookup, hk, hsrc, ih]

lemma serial_step_buf_getElem {σ : Type} [Inhabited σ] (sim : Simulator σ)
    (n : Nat) (envs : List σ) (buf ab : List Frame) (i : Nat)
    (hA : ab.length = n) (hiE : i < envs.length) (hiB : i < buf.length)
    (hiA : i < ab.length) :
    ((SerialEnv.step sim n envs buf ab).buf)[i]!
      = Frame.update (Frame.update buf[i]! ab[i]!)
          ((sim.step (Frame.update buf[i]! ab[i]!) envs[i]!).1) := by
  have htrue : assert_tensordict_shape n ab = true := by
    simp [assert_tensordict_shape, hA]
  have hb1 : i < (List.zipWith
      (fun slice abrow => Frame.update slice abrow) buf ab).length := by
    rw [List.length_zipWith]
    exact lt_min hiB hiA
  have hz : i < (envs.zip (List.zipWith
      (fun slice abrow => Frame.update slice abrow) buf ab)).length := by
    rw [List.length_zip]
    exact lt_min hiE hb1
  simp only [SerialEnv.step, htrue, if_true]
  rw [step_loop_eq_map]
  rw [getElemBang_pos _ i (by simpa using hz), getElemBang_pos buf i hiB,
    getElemBang_pos envs i hiE, getElemBang_pos ab i hiA]
  rw [List.getElem_map, List.getElem_map, List.getElem_zip,
    List.getElem_zipWith]

/-- Counterexample for C2: the serial variant violates the claim.  On a
concrete one-worker input, `SerialEnv._step` writes the whole action batch
into the shared buffer (the non-action key `observation_vector` takes the
batch's value 99) and returns the entire buffer (the key `action` included),
whereas the claim predicts the behaviour of `stepSpec`: only the action key
written and the result restricted to the updated-key union
`observation, done`. -/
theorem serial_step_counterexample :
    (SerialEnv.step simConst 1 [0]
          [[("action", 0), ("observation", 5), ("observation_vector", 50),
            ("done", 0)]]
          [[("action", 7), ("observation_vector", 99)]]).result
        = Except.ok
            [[("action", 7), ("observation", 1), ("observation_vector", 99),
              ("done", 0)]]
      ∧ (stepSpec simConst ["action"] [0]
            [[("action", 0), ("observation", 5), ("observation_vector", 50),
              ("done", 0)]]
            [[("action", 7), ("observation_vector", 99)]]).2
          = [[("observation", 1), ("done", 0)]]
      ∧ ([[("action", 7), ("observation", 1), ("observation_vector", 99),
            ("done", 0)]] : List Frame)
          ≠ [[("observation", 1), ("done", 0)]] := by
  exact ⟨by rfl, by rfl, by decide⟩

/-- C2 (amended): the parallel `_step` implements the claimed behaviour —
it writes only the action-key entries of the action batch into the shared
buffer and returns the buffer restricted to the union of the per-worker
updated-key sets (it coincides with `stepSpec`); the serial `_step` instead
updates the buffer with the entire action batch (any batch key present in
the slice and untouched by the simulator retains the batch's value, action
key or not) and returns the entire unrestricted buffer. -/
theorem step_action_restriction {σ : Type} [Inhabited σ] (sim : Simulator σ)
    (aks : List Key) (n : Nat) (envs : List σ) (buf ab : List Frame)
    (hA : ab.length = n) (hnd : ∀ e ∈ envs, sim.is_done e = false) :
    (ParallelEnv.step sim aks n envs buf ab).buf
        = (stepSpec sim aks envs buf ab).1
      ∧ (ParallelEnv.step sim aks n envs buf ab).result
        = Except.ok (stepSpec sim aks envs buf ab).2
      ∧ (SerialEnv.step sim n envs buf ab).result
        = Except.ok ((SerialEnv.step sim n envs buf ab).buf)
      ∧ (∀ i k v, i < envs.length → i < buf.length → i < ab.length →
          List.lookup k ab[i]! = some v →
          (List.lookup k buf[i]!).isSome = true →
          List.lookup k ((sim.step (Frame.update buf[i]! ab[i]!) envs[i]!).1)
            = none →
          List.lookup k (((SerialEnv.step sim n envs buf ab).buf)[i]!)
            = some v) := by
  have htrue : assert_tensordict_shape n ab = true := by
    simp [assert_tensordict_shape, hA]
  have hloop := pstep_loop_ok sim aks
    (envs.zip (List.zipWith
      (fun slice abrow => Frame.update slice (Frame.select abrow aks)) buf ab))
    (fun x hx => hnd x.1 (List.of_mem_zip hx).1)
  refine ⟨?_, ?_, ?_, ?_⟩
  · simp only [ParallelEnv.step, htrue, if_true]
    rw [hloop]
    simp [stepSpec]
  · simp only [ParallelEnv.step, htrue, if_true]
    rw [hloop]
    simp [stepSpec, List.map_map]
  · simp [SerialEnv.step, htrue]
  · intro i k v hiE hiB hiA hab hbuf hstep
    rw [serial_step_buf_getElem sim n envs buf ab i hA hiE hiB hiA]
    rw [lookup_update, hstep, lookup_update, hab]
    obtain ⟨w, hw⟩ := Option.isSome_iff_exists.mp hbuf
    rw [hw]
    simp

/-- Witness for C2 (amended) on the counterexample's input: the parallel
variant does restrict writes and result there. -/
theorem step_action_restriction_witness :
    ((([([("action", 7), ("observation_vector", 99)] : Frame)] : List Frame).length
        = 1)
      ∧ (∀ e ∈ ([0] : List Int), simConst.is_done e = false))
      ∧ ((ParallelEnv.step simConst ["action"] 1 [0]
            [[("action", 0), ("observation", 5), ("observation_vector", 50),
              ("done", 0)]]
            [[("action", 7), ("observation_vector", 99)]]).buf
          = (stepSpec simConst ["action"] [0]
              [[("action", 0), ("observation", 5), ("observation_vector", 50),
                ("done", 0)]]
              [[("action", 7), ("observation_vector", 99)]]).1
        ∧ (ParallelEnv.step simConst ["action"] 1 [0]
            [[("action", 0), ("observation", 5), ("observation_vector", 50),
              ("done", 0)]]
            [[("action", 7), ("observation_vector", 99)]]).result
          = Except.ok (stepSpec simConst ["action"] [0]
              [[("action", 0), ("observation", 5), ("observation_vector", 50),
                ("done", 0)]]
              [[("action", 7), ("observation_vector", 99)]]).2
        ∧ (SerialEnv.step simConst 1 [0]
            [[("action", 0), ("observation", 5), ("observation_vector", 50),
              ("done", 0)]]
            [[("action", 7), ("observation_vector", 99)]]).result
          = Except.ok ((SerialEnv.step simConst 1 [0]
              [[("action", 0), ("observation", 5), ("observation_vector", 50),
                ("done", 0)]]
              [[("action", 7), ("observation_vector", 99)]]).buf)
        ∧ (∀ i k v, i < ([0] : List Int).length →
            i < ([[("action", 0), ("observation", 5),
              ("observation_vector", 50), ("done", 0)]] : List Frame).length →
            i < ([[("action", 7), ("observation_vector", 99)]] : List Frame).length →
            List.lookup k
              ([[("action", 7), ("observation_vector", 99)]] : List Frame)[i]!
              = some v →
            (List.lookup k ([[("action", 0), ("observation", 5),
              ("observation_vector", 50), ("done", 0)]] : List Frame)[i]!).isSome
              = true →
            List.lookup k
              ((simConst.step
                (Frame.update
                  ([[("action", 0), ("observation", 5),
                    ("observation_vector", 50), ("done", 0)]] : List Frame)[i]!
                  ([[("action", 7), ("observation_vector", 99)]] : List Frame)[i]!)
                (([0] : List Int))[i]!).1) = none →
            List.lookup k (((SerialEnv.step simConst 1 [0]
              [[("action", 0), ("observation", 5), ("observation_vector", 50),
                ("done", 0)]]
              [[("action", 7), ("observation_vector", 99)]]).buf)[i]!)
              = some v)) :=
  ⟨⟨by decide, by decide⟩,
    step_action_restriction simConst ["action"] 1 [0]
      [[("action", 0), ("observation", 5), ("observation_vector", 50),
        ("done", 0)]]
      [[("action", 7), ("observation_vector", 99)]]
      (by decide) (by decide)⟩

/-- C8: when a worker services a `step` command on a live simulator, the
reply carries exactly the step result's keys minus the action keys as its
updated-key set, and its tag is `done` precisely when the simulator's step
result signals termination, `step_result` otherwise. -/
theorem worker_step_reply {σ : Type} (sim : Simulator σ) (aks : List Key)
    (e : σ) (slice : Frame) (h : sim.is_done e = false) :
    worker_step sim aks e slice
        = Except.ok ((workerStepResult sim aks e slice).2,
            workerStepSlice sim aks e slice,
            (if Frame.getDone (workerStepResult sim aks e slice).1 then "done"
              else "step_result"),
            workerStepKeys sim aks e slice)
      ∧ (∀ k, k ∈ workerStepKeys sim aks e slice
          ↔ (k ∈ Frame.keys (workerStepResult sim aks e slice).1 ∧ k ∉ aks))
      ∧ ((if Frame.getDone (workerStepResult sim aks e slice).1 then "done"
            else "step_result") = "done"
          ↔ Frame.getDone (workerStepResult sim aks e slice).1 = true) := by
  refine ⟨worker_step_ok sim aks e slice h, ?_, ?_⟩
  · intro k
    simp only [workerStepKeys, List.mem_filter]
    rw [bnot_contains_iff]
  · cases hd : Frame.getDone (workerStepResult sim aks e slice).1 with
    | true => simp
    | false => simp

/-- Witness for C8: a live worker replying to one concrete step. -/
theorem worker_step_reply_witness :
    simConst.is_done 0 = false
      ∧ (worker_step simConst ["action"] 0 [("action", 3), ("observation", 5), ("done", 0)]
            = Except.ok ((workerStepResult simConst ["action"] 0
                [("action", 3), ("observation", 5), ("done", 0)]).2,
              workerStepSlice simConst ["action"] 0
                [("action", 3), ("observation", 5), ("done", 0)],
              (if Frame.getDone (workerStepResult simConst ["action"] 0
                  [("action", 3), ("observation", 5), ("done", 0)]).1 then "done"
                else "step_result"),
              workerStepKeys simConst ["action"] 0
                [("action", 3), ("observation", 5), ("done", 0)])
        ∧ (∀ k, k ∈ workerStepKeys simConst ["action"] 0
              [("action", 3), ("observation", 5), ("done", 0)]
            ↔ (k ∈ Frame.keys (workerStepResult simConst ["action"] 0
                [("action", 3), ("observation", 5), ("done", 0)]).1
              ∧ k ∉ (["action"] : List Key)))
        ∧ ((if Frame.getDone (workerStepResult simConst ["action"] 0
              [("action", 3), ("observation", 5), ("done", 0)]).1 then "done"
            else "step_result") = "done"
          ↔ Frame.getDone (workerStepResult simConst ["action"] 0
              [("action", 3), ("observation", 5), ("done", 0)]).1 = true)) :=
  ⟨by rfl,
    worker_step_reply simConst ["action"] 0
      [("action", 3), ("observation", 5), ("done", 0)] (by rfl)⟩

end TorchRLVec
